import Mathlib

/-!
Verification of the value-inspection and formatting engine of
`src/public/console.js` (the `EmbeddedConsole` widget).

The embedding is heap-based: a JavaScript value is either a primitive or a
reference (`vref`) into a `Heap` of object records.  Object identity — which
the source tracks with a `WeakSet` of visited values — is the heap address.
Property reads that a hostile proxy would make throw are modelled by the
`readThrows` flag of a property descriptor; accessor properties by the
`getter` flag (the source never calls the accessor, so its body needs no
representation: theorems show the rendering is independent of the stored
value and of `readThrows`).

The recursive inspector is a fuel-indexed evaluator `run` over a small call
datatype `ICall`; each constructor corresponds to one source function
(`inspect`, `recursiveInspect`, the property loop, and the element maps of
the Set/Map branches).  Exhausting fuel yields the error `JSErr.overflow`,
the counterpart of the JavaScript stack-overflow `RangeError`, which the
source catches in `_formatString` exactly like any other thrown value.
-/

namespace DashConsole

/-- Exceptions that can escape the inspector: a thrown value (hostile proxy
trap, from `readThrows`) or call-stack exhaustion (fuel runs out). -/
inductive JSErr where
  | thrown
  | overflow
deriving DecidableEq, Repr

/-- JavaScript values: primitives plus references into a heap.  Function and
bigint values do not occur in any claim and are omitted from the universe. -/
inductive JSVal where
  | vstr (s : String)
  | vnum (n : Int)
  | vbool (b : Bool)
  | vundefined
  | vnull
  | vref (a : Nat)
deriving DecidableEq, Repr

/-- Own-property descriptor, as produced by `Object.getOwnPropertyDescriptors`.
`getter` models `typeof descriptor.get === 'function'`; `readThrows` models a
proxy `get` trap that throws when `obj[key]` is read. -/
structure PropDesc where
  key : String
  enumerable : Bool
  getter : Bool
  readThrows : Bool
  value : JSVal
deriving DecidableEq, Repr

/-- Heap records for composite values.  `obj`'s `ctor` is the result of
reading `value.constructor`: `none` when it is the default `Object`
constructor (or falsy), `some n` the value of its `.name` otherwise.
Error and RegExp objects occur in no claim and are omitted. -/
inductive ObjData where
  | obj (ctor : Option JSVal) (props : List PropDesc)
  | arr (elems : List JSVal)
  | set (sz : JSVal) (keys : List JSVal)
  | map (sz : JSVal) (entries : List (JSVal × JSVal))
  | wkset (ctor : Option JSVal)
  | wkmap (ctor : Option JSVal)
  /-- Object whose ToPrimitive string coercion throws, like
  `(\x7b toString() \x7b throw 1 \x7d \x7d)`.  Its sole own property is a
  function value, outside the modelled universe, so the structural walk
  sees no own string-keyed properties; what matters is that coercing it
  (`res += data[++idx]` in `_formatString`) raises, while inspecting it
  does not. -/
  | hostileToString
deriving DecidableEq, Repr

def Heap : Type := List ObjData

def heapGet (H : Heap) (a : Nat) : ObjData :=
  List.getD H a (ObjData.obj none [])

/-- String coercion for primitive values.  In the escaping path
(`escapeHtml` and `wrapInSpan` with escaping on) only primitives ever
arrive, so this total function is exact there.  Coercing a *reference*
invokes a user-overridable, possibly throwing `toString`: that fallible
ToPrimitive coercion is modelled separately by `jsCoerce`, which the
template-substitution path uses; the `vref` case below is a default for
totality only and is unreachable in the modelled escaping paths. -/
def jsToString : JSVal → String
  | .vstr s => s
  | .vnum n => toString n
  | .vbool true => "true"
  | .vbool false => "false"
  | .vundefined => "undefined"
  | .vnull => "null"
  | .vref _ => "[object Object]"

/-- Truthiness, as tested by `data[++idx] || ...` in `_formatString`. -/
def jsTruthy : JSVal → Bool
  | .vstr s => !(s == "")
  | .vnum n => !(n == 0)
  | .vbool b => b
  | .vundefined => false
  | .vnull => false
  | .vref _ => true

/-- Per-character case of `escapeHtml`'s `switch`. -/
def escChar (c : Char) : String :=
  if c = '<' then "&lt;"
  else if c = '>' then "&gt;"
  else if c = ' ' then "&nbsp;"
  else if c = '\n' then "<br />"
  else String.singleton c

/-- Concatenation of the per-character pieces (the `result += ...` loop). -/
def strConcat : List String → String
  | [] => ""
  | s :: rest => s ++ strConcat rest

/-- Source `escapeHtml` on a string already known to be a string. -/
def escapeHtmlStr (s : String) : String :=
  strConcat (s.data.map escChar)

/-- Source `escapeHtml(value)`: coerce non-strings with `native.String`. -/
def escapeHtmlJS (v : JSVal) : String :=
  escapeHtmlStr (jsToString v)

-- Class-name constants from `ClassNames` (only those reaching the output).
def cnNullish : String := "ec-nullish"
def cnString : String := "ec-string"
def cnStringObject : String := "ec-regexp"
def cnNumeric : String := "ec-numeric"
def cnObject : String := "ec-object"
def cnHidden : String := "ec-hidden"
def cnSet : String := "ec-object"
def cnMap : String := "ec-object"
def cnFnSig : String := "ec-function-signature"
def cnArrow : String := "ec-collapse-arrow"

/-- Source `wrapInSpan(className, value, doEscape = true)`. -/
def wrapInSpan (className : String) (value : JSVal) (doEscape : Bool) : String :=
  let escaped := if doEscape then escapeHtmlJS value else jsToString value
  "<span class=\"" ++ className ++ "\">" ++ escaped ++ "</span>"

def COLLAPSED_CHAR : String := "…"

def MAX_COLLAPSED_PROPERTIES : Nat := 5

def COLLAPSED_ARROW : String := wrapInSpan cnArrow (.vstr "⯈") false

def EXPANDED_ARROW : String := wrapInSpan cnArrow (.vstr "⯆") false

/-- Source constant `FUNCTION_SIGNATURE_PREFIX = wrapInSpan(FUNCTION_SIGNATURE, 'ƒ ', false)`. -/
def fnSignatureSpan : String := wrapInSpan cnFnSig (.vstr "ƒ ") false

/-- Source `trimString(str, maxLen = 100)`. -/
def trimString (str : String) (maxLen : Nat := 100) : String :=
  String.mk (str.data.take (min str.length maxLen)) ++
    (if maxLen < str.length then COLLAPSED_CHAR else "")

/-- Visited-set insertion, `WeakSet.prototype.add` keyed by heap address. -/
def wsAdd (vis : List Nat) (a : Nat) : List Nat :=
  if vis.contains a then vis else a :: vis

/-- Source `internalProperties = new Set(['length'])`. -/
def internalProperties : List String := ["length"]

def isArrData : ObjData → Bool
  | .arr _ => true
  | _ => false

/-- Own property descriptors in `Object.getOwnPropertyNames` order.  For an
array these are the index properties followed by the non-enumerable
`length`; Set/Map/weak instances have no own string-keyed properties. -/
def ownProps : ObjData → List PropDesc
  | .obj _ ps => ps
  | .arr es =>
      (es.enum.map fun p => ⟨toString p.1, true, false, false, p.2⟩) ++
        [⟨"length", false, false, false, .vnum (es.length : Int)⟩]
  | _ => []

/-- Call forms of the mutually recursive inspector, one per source function:
`ins` is `inspect`, `recI` is `recursiveInspect`, `props` is its `for` loop
(carrying `count` and the accumulated `str`), `elems`/`pairs` are the
element maps of the Set and Map branches. -/
inductive ICall where
  | ins (v : JSVal) (inObject collapsed : Bool)
  | recI (v : JSVal) (inObject collapsed : Bool)
  | props (isArray : Bool) (collapsed : Bool) (ps : List PropDesc) (count : Nat) (str : String)
  | elems (ks : List JSVal) (first : Bool)
  | pairs (es : List (JSVal × JSVal)) (first : Bool)

/-- Fuel-indexed evaluator of the inspector.  Every recursive call burns one
unit of fuel, standing for one JavaScript stack frame; fuel 0 is the stack
limit and raises `JSErr.overflow`.  The result pairs the markup string with
the visited set, whose mutation the source shares down the recursion. -/
def run : Nat → Heap → ICall → List Nat → Except JSErr (String × List Nat)
  | 0, _, _, _ => .error .overflow
  | fuel + 1, H, c, visited =>
    match c with
    | .ins v inObject collapsed =>
      match v with
      | .vstr s =>
        -- strings: quoted and trimmed inside objects, plain at top level
        if inObject then
          .ok (wrapInSpan cnStringObject (.vstr ("\"" ++ trimString s ++ "\"")) true, visited)
        else
          .ok (wrapInSpan cnString (.vstr s) true, visited)
      | .vnull => .ok (wrapInSpan cnNullish .vnull true, visited)
      | .vundefined => .ok (wrapInSpan cnNullish .vundefined true, visited)
      | .vnum n => .ok (wrapInSpan cnNumeric (.vnum n) true, visited)
      | .vbool b => .ok (wrapInSpan cnNumeric (.vbool b) true, visited)
      | .vref a =>
        let arrow := if collapsed then COLLAPSED_ARROW else EXPANDED_ARROW
        match heapGet H a with
        | .set sz ks =>
          -- prefix inspects `value.size` (inObject true, collapsed default true)
          match run fuel H (.ins sz true true) visited with
          | .error e => .error e
          | .ok (szr, vis1) =>
            match run fuel H (.elems ks true) vis1 with
            | .error e => .error e
            | .ok (er, vis2) =>
              .ok (wrapInSpan cnSet
                (.vstr ("Set(" ++ szr ++ ") \x7b" ++ er ++ "\x7d")) false, vis2)
        | .map sz es =>
          match run fuel H (.ins sz true true) visited with
          | .error e => .error e
          | .ok (szr, vis1) =>
            match run fuel H (.pairs es true) vis1 with
            | .error e => .error e
            | .ok (er, vis2) =>
              .ok (wrapInSpan cnMap
                (.vstr ("Map(" ++ szr ++ ") \x7b" ++ er ++ "\x7d")) false, vis2)
        | .wkset ctor =>
          let result := escapeHtmlStr "\x7b <items unknown> \x7d"
          match ctor with
          | none => .ok (wrapInSpan cnObject (.vstr (arrow ++ " " ++ result)) false, visited)
          | some cv =>
            match run fuel H (.ins cv false true) visited with
            | .error e => .error e
            | .ok (cr, vis1) =>
              .ok (wrapInSpan cnObject (.vstr (arrow ++ " " ++ cr ++ " " ++ result)) false, vis1)
        | .wkmap ctor =>
          let result := escapeHtmlStr "\x7b <items unknown> \x7d"
          match ctor with
          | none => .ok (wrapInSpan cnObject (.vstr (arrow ++ " " ++ result)) false, visited)
          | some cv =>
            match run fuel H (.ins cv false true) visited with
            | .error e => .error e
            | .ok (cr, vis1) =>
              .ok (wrapInSpan cnObject (.vstr (arrow ++ " " ++ cr ++ " " ++ result)) false, vis1)
        | .obj ctor _props =>
          -- selfRecursive: pre-register in the visited set, then walk
          match run fuel H (.recI (.vref a) inObject collapsed) (wsAdd visited a) with
          | .error e => .error e
          | .ok (result, vis1) =>
            match ctor with
            | none => .ok (wrapInSpan cnObject (.vstr (arrow ++ " " ++ result)) false, vis1)
            | some cv =>
              -- constructor name is itself inspected (`self(valueConstructor.name)`)
              match run fuel H (.ins cv false true) vis1 with
              | .error e => .error e
              | .ok (cr, vis2) =>
                .ok (wrapInSpan cnObject (.vstr (arrow ++ " " ++ cr ++ " " ++ result)) false, vis2)
        | .hostileToString =>
          -- strictObject path, default constructor, no modelled own props
          match run fuel H (.recI (.vref a) inObject collapsed) (wsAdd visited a) with
          | .error e => .error e
          | .ok (result, vis1) =>
            .ok (wrapInSpan cnObject (.vstr (arrow ++ " " ++ result)) false, vis1)
        | .arr elems =>
          match run fuel H (.recI (.vref a) inObject collapsed) (wsAdd visited a) with
          | .error e => .error e
          | .ok (result, vis1) =>
            if 2 ≤ elems.length then
              match run fuel H (.ins (.vnum (elems.length : Int)) true true) vis1 with
              | .error e => .error e
              | .ok (lr, vis2) =>
                .ok (wrapInSpan cnObject (.vstr (arrow ++ " (" ++ lr ++ ") " ++ result)) false, vis2)
            else
              .ok (wrapInSpan cnObject (.vstr (arrow ++ " " ++ result)) false, vis1)
    | .recI v inObject collapsed =>
      match v with
      | .vref a =>
        let od := heapGet H a
        match run fuel H (.props (isArrData od) collapsed (ownProps od) 0 "") visited with
        | .error e => .error e
        | .ok (str, vis1) =>
          .ok ((if isArrData od then "[" ++ str ++ "]" else "\x7b" ++ str ++ "\x7d"), vis1)
      | v => run fuel H (.ins v inObject collapsed) visited
    | .props isArray collapsed ps count str =>
      match ps with
      | [] => .ok (str, visited)
      | p :: rest =>
        let count1 := count + 1
        -- pre-incremented counter against MAX_COLLAPSED_PROPERTIES
        if collapsed ∧ MAX_COLLAPSED_PROPERTIES ≤ count1 then
          .ok (str ++ ", " ++ COLLAPSED_CHAR, visited)
        else
          let step : Except JSErr (String × List Nat) :=
            if p.getter then
              .ok (fnSignatureSpan ++ " [Getter]", visited)
            else if p.readThrows then
              .error .thrown
            else
              match p.value with
              | .vref b =>
                if visited.contains b then .ok ("[Circular]", visited)
                else run fuel H (.ins (.vref b) true collapsed) (wsAdd visited b)
              | w => run fuel H (.ins w true collapsed) visited
          match step with
          | .error e => .error e
          | .ok (result, vis1) =>
            let str1 := if 0 < str.length then str ++ ", " else str
            let str2 := if collapsed then str1 else str1 ++ "<br />"
            let hasInternal := internalProperties.contains p.key
            let str3 :=
              if !isArray || hasInternal then
                let ek := escapeHtmlStr p.key
                let ek1 := if hasInternal then "[" ++ ek ++ "]" else ek
                if !p.enumerable then
                  str2 ++ wrapInSpan cnHidden (.vstr ek1) false ++ ": " ++ result
                else
                  str2 ++ ek1 ++ ": " ++ result
              else
                str2 ++ result
            run fuel H (.props isArray collapsed rest count1 str3) vis1
    | .elems ks first =>
      match ks with
      | [] => .ok ("", visited)
      | k :: rest =>
        -- `self(k, false)`: top-level style, collapsed defaulting to true
        match run fuel H (.ins k false true) visited with
        | .error e => .error e
        | .ok (r, vis1) =>
          match run fuel H (.elems rest false) vis1 with
          | .error e => .error e
          | .ok (rs, vis2) =>
            .ok ((if first then "" else ", ") ++ r ++ rs, vis2)
    | .pairs es first =>
      match es with
      | [] => .ok ("", visited)
      | (k, v) :: rest =>
        match run fuel H (.ins k true true) visited with
        | .error e => .error e
        | .ok (kr, vis1) =>
          match run fuel H (.ins v true true) vis1 with
          | .error e => .error e
          | .ok (vr, vis2) =>
            match run fuel H (.pairs rest false) vis2 with
            | .error e => .error e
            | .ok (rs, vis3) =>
              .ok ((if first then "" else ", ") ++ kr ++ " => " ++ vr ++ rs, vis3)

/-- Source `inspect(value, visited, inObject, collapsed)`. -/
def inspect (fuel : Nat) (H : Heap) (value : JSVal) (visited : List Nat)
    (inObject collapsed : Bool) : Except JSErr (String × List Nat) :=
  run fuel H (.ins value inObject collapsed) visited

/-- Source `recursiveInspect(obj, visited, inObject, collapsed)`. -/
def recursiveInspect (fuel : Nat) (H : Heap) (obj : JSVal) (visited : List Nat)
    (inObject collapsed : Bool) : Except JSErr (String × List Nat) :=
  run fuel H (.recI obj inObject collapsed) visited

/-- Markup of a top-level inspection (fresh visited set), or a fixed tag on
an uncaught error.  Convenience accessor for theorem statements. -/
def inspectOut (fuel : Nat) (H : Heap) (v : JSVal) (collapsed : Bool) : String :=
  match inspect fuel H v [] false collapsed with
  | .ok (r, _) => r
  | .error _ => "<<error>>"

-- ===== Argument formatter (`_formatString`) =====

/-- Source constant `placeholders = new Set([...'oOdisf'])`. -/
def placeholders : List Char := ['o', 'O', 'd', 'i', 's', 'f']

/-- Template loop of `_formatString`: iterate the characters of the first
argument; a placeholder character preceded by `%` consumes `data[++idx]`
via raw string coercion (falling back to the literal `%c` when that entry
is absent or falsy); a bare `%` is skipped; everything else is copied.
The source reads `initial[i-1]`, carried here as `prev`. -/
def processTemplate (data : List JSVal) : List Char → Option Char → Nat → String
  | [], _, _ => ""
  | c :: cs, prev, idx =>
    if placeholders.contains c && prev == some '%' then
      let idx1 := idx + 1
      let piece :=
        match data[idx1]? with
        | some v => if jsTruthy v then jsToString v else "%" ++ String.singleton c
        | none => "%" ++ String.singleton c
      piece ++ processTemplate data cs (some c) idx1
    else if c == '%' then
      processTemplate data cs (some c) idx
    else
      String.singleton c ++ processTemplate data cs (some c) idx

/-- Per-argument body of `_formatString`'s map: inspect with a fresh visited
set and catch any thrown error as the fixed `[Unknown]` marker. -/
def renderArg (fuel : Nat) (H : Heap) (collapsed : Bool) (p : JSVal) : String :=
  match inspect fuel H p [] false collapsed with
  | .ok (r, _) => r
  | .error _ => "[Unknown]"

/-- Restriction of `_formatString` in which the template substitution uses
the total primitive coercion `jsToString`.  It agrees with the faithful
fallible embedding `formatStringE` whenever no composite argument is
consumed by a placeholder (`formatStringE_primitive_agree`); the timer
entry points only ever pass strings, where the two coincide. -/
def formatString (fuel : Nat) (H : Heap) (collapsed : Bool) (data : List JSVal) : String :=
  let data1 : List JSVal :=
    match data with
    | .vstr s :: rest => JSVal.vstr (processTemplate (.vstr s :: rest) s.data none 0) :: rest
    | _ => data
  String.intercalate " " (data1.map (renderArg fuel H collapsed))

def isRef : JSVal → Bool
  | .vref _ => true
  | _ => false

/-- Call forms of the ToPrimitive string coercion invoked by
`res += data[++idx]`: one value, or the elements of an array being joined
by `Array.prototype.toString`/`join` (which renders nullish elements as
the empty string and coerces the rest recursively). -/
inductive CoerceCall where
  | one (v : JSVal)
  | many (es : List JSVal) (first : Bool)

/-- Fuel-indexed ToPrimitive string coercion.  Primitives stringify as
`jsToString`; a plain object yields "[object Object]", collections their
`Object.prototype.toString` tags, an array the comma-join of its coerced
elements, and a hostile object with a throwing `toString` raises — this
happens outside any try/catch in the source's template loop. -/
def coerceRun : Nat → Heap → CoerceCall → Except JSErr String
  | 0, _, _ => .error .overflow
  | fuel + 1, H, c =>
    match c with
    | .one v =>
      match v with
      | .vref a =>
        match heapGet H a with
        | .hostileToString => .error .thrown
        | .arr es => coerceRun fuel H (.many es true)
        | .obj _ _ => .ok "[object Object]"
        | .set _ _ => .ok "[object Set]"
        | .map _ _ => .ok "[object Map]"
        | .wkset _ => .ok "[object WeakSet]"
        | .wkmap _ => .ok "[object WeakMap]"
      | w => .ok (jsToString w)
    | .many es first =>
      match es with
      | [] => .ok ""
      | e :: rest =>
        let piece : Except JSErr String :=
          match e with
          | .vnull => .ok ""
          | .vundefined => .ok ""
          | w => coerceRun fuel H (.one w)
        match piece with
        | .error er => .error er
        | .ok p =>
          match coerceRun fuel H (.many rest false) with
          | .error er => .error er
          | .ok rs => .ok ((if first then "" else ",") ++ p ++ rs)

/-- ToPrimitive string coercion of one value (see `coerceRun`). -/
def jsCoerce (fuel : Nat) (H : Heap) (v : JSVal) : Except JSErr String :=
  coerceRun fuel H (.one v)

/-- Faithful template loop of `_formatString`: like `processTemplate`, but
the substitution `res += data[++idx]` coerces the consumed truthy argument
through the fallible `jsCoerce`, and a raised coercion error propagates —
the loop runs outside the formatter's try/catch. -/
def processTemplateE (fuel : Nat) (H : Heap) (data : List JSVal) :
    List Char → Option Char → Nat → Except JSErr String
  | [], _, _ => .ok ""
  | c :: cs, prev, idx =>
    if placeholders.contains c && prev == some '%' then
      let idx1 := idx + 1
      let piece : Except JSErr String :=
        match data[idx1]? with
        | some v =>
          if jsTruthy v then jsCoerce fuel H v else .ok ("%" ++ String.singleton c)
        | none => .ok ("%" ++ String.singleton c)
      match piece with
      | .error e => .error e
      | .ok p =>
        match processTemplateE fuel H data cs (some c) idx1 with
        | .error e => .error e
        | .ok rest => .ok (p ++ rest)
    else if c == '%' then
      processTemplateE fuel H data cs (some c) idx
    else
      match processTemplateE fuel H data cs (some c) idx with
      | .error e => .error e
      | .ok rest => .ok (String.singleton c ++ rest)

/-- Faithful `_formatString(collapsed, ...data)`.  The template loop (with
its fallible coercion) runs first, outside any try/catch, so its error is
the caller's; only then is every entry independently inspected, each
`inspect` wrapped in the catch that yields `[Unknown]`, and the results
joined with one space (`data[0] = res`; the source's `arraySlice` call is
non-mutating, so the consumed entries stay in place). -/
def formatStringE (fuel : Nat) (H : Heap) (collapsed : Bool) (data : List JSVal) :
    Except JSErr String :=
  match data with
  | .vstr s :: rest =>
    match processTemplateE fuel H (.vstr s :: rest) s.data none 0 with
    | .error e => .error e
    | .ok res =>
      .ok (String.intercalate " " ((JSVal.vstr res :: rest).map (renderArg fuel H collapsed)))
  | _ => .ok (String.intercalate " " (data.map (renderArg fuel H collapsed)))

-- ===== Timer registry and log store =====

inductive LogLevel where
  | log
  | warn
  | error
deriving DecidableEq, Repr

/-- Insertion-ordered map semantics of the native `Map` used for timers:
`set` overwrites in place, `get` finds the first entry, `delete` removes it. -/
def mapSet : List (String × Int) → String → Int → List (String × Int)
  | [], k, v => [(k, v)]
  | (k', v') :: rest, k, v =>
    if k' == k then (k', v) :: rest else (k', v') :: mapSet rest k v

def mapGet : List (String × Int) → String → Option Int
  | [], _ => none
  | (k', v') :: rest, k => if k' == k then some v' else mapGet rest k

def mapDelete : List (String × Int) → String → List (String × Int)
  | [], _ => []
  | (k', v') :: rest, k => if k' == k then rest else (k', v') :: mapDelete rest k

/-- Fuel used by the logging entry points (the JavaScript stack budget). -/
def logFuel : Nat := 100

/-- Console state: the named-timer map and the rendered entries appended so
far (level paired with the `_formatString` markup). -/
structure EC where
  timers : List (String × Int)
  output : List (LogLevel × String)
deriving DecidableEq, Repr

/-- Source `log(...data)`: append a formatted entry (collapsed mode). -/
def EC.log (s : EC) (H : Heap) (data : List JSVal) : EC :=
  { s with output := s.output ++ [(.log, formatString logFuel H true data)] }

/-- Source `warn(...data)`. -/
def EC.warn (s : EC) (H : Heap) (data : List JSVal) : EC :=
  { s with output := s.output ++ [(.warn, formatString logFuel H true data)] }

/-- Source `time(specifier)`: store the current monotonic timestamp. -/
def EC.time (s : EC) (label : String) (now : Int) : EC :=
  { s with timers := mapSet s.timers label now }

/-- Source `timeEnd(specifier)`: warn when the timer is unknown, otherwise
log the elapsed time and delete the entry. -/
def EC.timeEnd (s : EC) (label : String) (now : Int) : EC :=
  match mapGet s.timers label with
  | none => EC.warn s [] [JSVal.vstr ("Timer " ++ label ++ " does not exist")]
  | some p =>
    let s1 := EC.log s [] [JSVal.vstr (label ++ ":"), JSVal.vstr (toString (now - p) ++ "ms")]
    { s1 with timers := mapDelete s1.timers label }

-- ===== String-search helpers for stating properties of the markup =====

/-- Bool test that `pre` is a prefix of `l`. -/
def listStarts : List Char → List Char → Bool
  | _, [] => true
  | [], _ :: _ => false
  | c :: cs, d :: ds => c == d && listStarts cs ds

/-- Bool test that `needle` occurs inside `hay`. -/
def listContainsSub (hay needle : List Char) : Bool :=
  if listStarts hay needle then true
  else
    match hay with
    | [] => false
    | _ :: t => listContainsSub t needle

/-- Number of (possibly overlapping) occurrences of `needle` in `hay`. -/
def listCountSub (hay needle : List Char) : Nat :=
  match hay with
  | [] => 0
  | _ :: t => (if listStarts hay needle then 1 else 0) + listCountSub t needle

def strContains (hay needle : String) : Bool :=
  listContainsSub hay.data needle.data

def strCount (hay needle : String) : Nat :=
  listCountSub hay.data needle.data

/-- Escaped fragments: character lists assembled from the escape tokens
`&lt;` `&gt;` `&nbsp;` `<br />` and characters other than `<` and `>`.
In such a fragment every raw angle bracket belongs to an engine-emitted
`<br />`, never to input text. -/
inductive SafeChunks : List Char → Prop where
  | nil : SafeChunks []
  | lt {r : List Char} : SafeChunks r → SafeChunks ("&lt;".data ++ r)
  | gt {r : List Char} : SafeChunks r → SafeChunks ("&gt;".data ++ r)
  | nbsp {r : List Char} : SafeChunks r → SafeChunks ("&nbsp;".data ++ r)
  | br {r : List Char} : SafeChunks r → SafeChunks ("<br />".data ++ r)
  | chr {c : Char} {r : List Char} :
      c ≠ '<' → c ≠ '>' → SafeChunks r → SafeChunks (c :: r)

-- ===== Claim inputs =====

/-- Self-referential object `a` with `a.self = a` (claim C4). -/
def selfRefHeap : Heap := [.obj none [⟨"self", true, false, false, .vref 0⟩]]

/-- Heap whose address 0 is an object whose only own property is an accessor
with arbitrary enumerability, read behaviour and stored value (claim C2). -/
def getterHeap (key : String) (e rT : Bool) (v : JSVal) : Heap :=
  [.obj none [⟨key, e, true, rT, v⟩]]

/-- Object with one property whose read throws, like `new Proxy` with a
throwing `get` trap (claim C3). -/
def throwHeap : Heap := [.obj none [⟨"a", true, false, true, .vnum 0⟩]]

def isStringArg : JSVal → Bool
  | .vstr _ => true
  | _ => false

/-- What the walk renders for a sole accessor property named `key` with
enumerability `e`: the styled escaped key, a colon, and the fixed
`[Getter]` placeholder (mirrors the source's assembly of `str`). -/
def renderedGetterProp (key : String) (e : Bool) : String :=
  let hasInternal := internalProperties.contains key
  let ek := escapeHtmlStr key
  let ek1 := if hasInternal then "[" ++ ek ++ "]" else ek
  if !e then wrapInSpan cnHidden (.vstr ek1) false ++ ": " ++ (fnSignatureSpan ++ " [Getter]")
  else ek1 ++ ": " ++ (fnSignatureSpan ++ " [Getter]")

/-- Like `inspectOut`, but starting from a given visited set (the recursion's
general state; claim C5). -/
def inspectOutV (fuel : Nat) (H : Heap) (v : JSVal) (vis : List Nat) (collapsed : Bool) : String :=
  match inspect fuel H v vis false collapsed with
  | .ok (r, _) => r
  | .error _ => "<<error>>"

/-- Object `a = \x7bs: set\x7d` where the set's sole element is `a` itself
(claim C5). -/
def setCycleHeap : Heap :=
  [.obj none [⟨"s", true, false, false, .vref 1⟩], .set (.vnum 1) [.vref 0]]

/-- Object with one data property holding a reference to address `a`
(claim C5, amended part). -/
def singleRefObj (a : Nat) : Heap := [.obj none [⟨"p", true, false, false, .vref a⟩]]

/-- Object with 10 own enumerable data properties (claim C6). -/
def tenPropHeap : Heap :=
  [.obj none [⟨"a", true, false, false, .vnum 1⟩, ⟨"b", true, false, false, .vnum 2⟩,
    ⟨"c", true, false, false, .vnum 3⟩, ⟨"d", true, false, false, .vnum 4⟩,
    ⟨"e", true, false, false, .vnum 5⟩, ⟨"f", true, false, false, .vnum 6⟩,
    ⟨"g", true, false, false, .vnum 7⟩, ⟨"h", true, false, false, .vnum 8⟩,
    ⟨"i", true, false, false, .vnum 9⟩, ⟨"j", true, false, false, .vnum 10⟩]]

/-- Set-like value whose reported `size` is an arbitrary hostile value and
whose key iterator yields nothing (claim C8). -/
def hostileSetHeap (sz : JSVal) : Heap := [.set sz []]

/-- Map-like analogue of `hostileSetHeap` (claim C8). -/
def hostileMapHeap (sz : JSVal) : Heap := [.map sz []]

/-- Set-like value with a hostile `size` and two genuine elements
(claim C8: the size stays escaped while entries are enumerated). -/
def hostileSetHeap2 : Heap := [.set (.vstr "<b>x</b>") [.vnum 1, .vnum 2]]

/-- Map-like value with a hostile `size` and one genuine entry (claim C8). -/
def hostileMapHeap2 : Heap := [.map (.vstr "<b>x</b>") [(.vnum 1, .vstr "a")]]

/-- Heap whose address 0 is an object with a throwing `toString`
(claim C3). -/
def hostileTSHeap : Heap := [.hostileToString]

/-- Whether the template loop would ever take its substitution branch: some
placeholder character is preceded by `%` (claim C10). -/
def hasSubst : Option Char → List Char → Bool
  | _, [] => false
  | prev, c :: cs => (placeholders.contains c && prev == some '%') || hasSubst (some c) cs

-- ===== Helper lemmas =====

theorem data_append (a b : String) : (a ++ b).data = a.data ++ b.data := by
  cases a
  cases b
  rfl

theorem listStarts_nil (a : List Char) : listStarts a [] = true := by
  cases a <;> rfl

theorem listStarts_self (n r : List Char) : listStarts (n ++ r) n = true := by
  induction n with
  | nil => exact listStarts_nil r
  | cons c cs ih => simp [listStarts, ih]

theorem listContainsSub_of_starts {hay n : List Char} (h : listStarts hay n = true) :
    listContainsSub hay n = true := by
  unfold listContainsSub
  simp [h]

theorem listContainsSub_append_right (a : List Char) {b n : List Char}
    (h : listContainsSub b n = true) : listContainsSub (a ++ b) n = true := by
  induction a with
  | nil => simpa using h
  | cons c cs ih =>
    unfold listContainsSub
    split
    · rfl
    · simpa using ih

theorem listStarts_extend {n : List Char} (b : List Char) :
    ∀ {a : List Char}, listStarts a n = true → listStarts (a ++ b) n = true := by
  induction n with
  | nil => intro a _; exact listStarts_nil _
  | cons d ds ih =>
    intro a h
    cases a with
    | nil => simp [listStarts] at h
    | cons c cs =>
      simp only [listStarts, Bool.and_eq_true] at h
      simpa [listStarts, h.1] using ih h.2

theorem listContainsSub_append_left {n : List Char} (b : List Char) :
    ∀ {a : List Char}, listContainsSub a n = true → listContainsSub (a ++ b) n = true := by
  intro a
  induction a with
  | nil =>
    intro h
    unfold listContainsSub at h
    cases n with
    | nil => exact listContainsSub_of_starts (listStarts_nil b)
    | cons d ds => simp [listStarts] at h
  | cons c cs ih =>
    intro h
    unfold listContainsSub at h ⊢
    by_cases hs : listStarts (c :: cs) n = true
    · have hx := listStarts_extend b hs
      simp only [List.cons_append] at hx
      simp [hx]
    · simp [hs] at h
      split
      · rfl
      · simpa using ih h

theorem strContains_append_right (a : String) {b n : String}
    (h : strContains b n = true) : strContains (a ++ b) n = true := by
  unfold strContains at h ⊢
  rw [data_append]
  exact listContainsSub_append_right a.data h

theorem strContains_append_left {a n : String} (b : String)
    (h : strContains a n = true) : strContains (a ++ b) n = true := by
  unfold strContains at h ⊢
  rw [data_append]
  exact listContainsSub_append_left b.data h

theorem strContains_self (n r : String) : strContains (n ++ r) n = true := by
  unfold strContains
  rw [data_append]
  exact listContainsSub_of_starts (listStarts_self n.data r.data)

/-- Output of `escapeHtml` is assembled from the safe escape tokens: every
raw angle bracket in it belongs to an emitted `<br />`. -/
theorem safeChunks_escapeList (l : List Char) : SafeChunks (strConcat (l.map escChar)).data := by
  induction l with
  | nil => exact .nil
  | cons c cs ih =>
    show SafeChunks ((escChar c ++ strConcat (cs.map escChar)).data)
    rw [data_append]
    unfold escChar
    by_cases h1 : c = '<'
    · simpa [h1] using SafeChunks.lt ih
    · by_cases h2 : c = '>'
      · simpa [h1, h2] using SafeChunks.gt ih
      · by_cases h3 : c = ' '
        · simpa [h1, h2, h3] using SafeChunks.nbsp ih
        · by_cases h4 : c = '\n'
          · simpa [h1, h2, h3, h4] using SafeChunks.br ih
          · simpa [h1, h2, h3, h4] using SafeChunks.chr h1 h2 ih

theorem escapeHtmlStr_safe (s : String) : SafeChunks (escapeHtmlStr s).data :=
  safeChunks_escapeList s.data

theorem singleton_append_mk (c : Char) (l : List Char) :
    String.singleton c ++ String.mk l = String.mk (c :: l) := rfl

theorem intercalate_single (x : String) : String.intercalate " " [x] = x := rfl

theorem contains_wsAdd {vis : List Nat} {a : Nat} (c : Nat) (h : vis.contains a = true) :
    (wsAdd vis c).contains a = true := by
  unfold wsAdd
  split
  · exact h
  · simp only [List.contains_cons, h, Bool.or_true]

theorem mapGet_mapSet (m : List (String × Int)) (k : String) (v : Int) :
    mapGet (mapSet m k v) k = some v := by
  induction m with
  | nil => simp [mapSet, mapGet]
  | cons kv rest ih =>
    obtain ⟨k', v'⟩ := kv
    by_cases h : (k' == k) = true
    · simp [mapSet, mapGet, h]
    · simp [mapSet, mapGet, h, ih]

/-- On data containing no references, the fallible template loop agrees with
the total one: primitive coercion cannot throw. -/
theorem processTemplateE_primitive_agree (f : Nat) (H : Heap) (data : List JSVal)
    (hdata : ∀ v ∈ data, isRef v = false) :
    ∀ (l : List Char) (prev : Option Char) (idx : Nat),
      processTemplateE (f + 1) H data l prev idx = .ok (processTemplate data l prev idx) := by
  intro l
  induction l with
  | nil => intro prev idx; rfl
  | cons c cs ih =>
    intro prev idx
    unfold processTemplateE processTemplate
    by_cases h1 : (placeholders.contains c && prev == some '%') = true
    · simp only [h1, if_true]
      cases hidx : data[idx + 1]? with
      | none => simp [hidx, ih]
      | some v =>
        have hv := hdata v (List.getElem?_mem hidx)
        by_cases h2 : jsTruthy v = true
        · have hcv : jsCoerce (f + 1) H v = .ok (jsToString v) := by
            cases v <;> simp_all [jsCoerce, coerceRun, isRef]
          simp [hidx, h2, hcv, ih]
        · simp [hidx, h2, ih]
    · simp only [h1, if_false]
      by_cases h3 : (c == '%') = true
      · simp [h3, ih]
      · simp [h3, ih]

/-- On argument lists without references the faithful formatter cannot throw
and returns exactly the total `formatString`'s output. -/
theorem formatStringE_primitive_agree (f : Nat) (H : Heap) (c : Bool) (data : List JSVal)
    (hdata : ∀ v ∈ data, isRef v = false) :
    formatStringE (f + 1) H c data = .ok (formatString (f + 1) H c data) := by
  cases data with
  | nil => rfl
  | cons d rest =>
    cases d with
    | vstr s =>
      show (match processTemplateE (f + 1) H (.vstr s :: rest) s.data none 0 with
        | Except.error e => Except.error e
        | Except.ok res => Except.ok (String.intercalate " "
            ((JSVal.vstr res :: rest).map (renderArg (f + 1) H c)))) = _
      rw [processTemplateE_primitive_agree f H (JSVal.vstr s :: rest) hdata]
      rfl
    | vnum n => rfl
    | vbool b => rfl
    | vundefined => rfl
    | vnull => rfl
    | vref a => simp [isRef] at hdata

-- ===== Claim theorems =====

/-- C1 (amended): for every string, top-level inspection wraps the
HTML-escaped text in the engine's string span, and the escaped text is
assembled purely from safe escape tokens, so no raw `<` or `>` survives
outside engine-emitted tags.  In particular `"<img src=x>"` renders with
`&lt;img&nbsp;src=x&gt;` (the space becomes `&nbsp;`). -/
theorem c1_escaping_invariant :
    (∀ (s : String) (f : Nat),
      inspect (f + 1) [] (.vstr s) [] false true =
        .ok ("<span class=\"" ++ cnString ++ "\">" ++ escapeHtmlStr s ++ "</span>", []) ∧
      SafeChunks (escapeHtmlStr s).data) ∧
    inspectOut 5 [] (.vstr "<img src=x>") true =
      "<span class=\"ec-string\">&lt;img&nbsp;src=x&gt;</span>" ∧
    strContains (inspectOut 5 [] (.vstr "<img src=x>") true) "&lt;img&nbsp;src=x&gt;" = true :=
  ⟨fun s _ => ⟨rfl, escapeHtmlStr_safe s⟩, by decide, by decide⟩

/-- C1 counterexample: the claim's literal example substring
`&lt;img src=x&gt;` does not occur in the rendered fragment, because
`escapeHtml` turns the space into `&nbsp;`. -/
theorem c1_space_example_counterexample :
    strContains (inspectOut 5 [] (.vstr "<img src=x>") true) "&lt;img src=x&gt;" = false := by
  decide

/-- C4: inspecting the self-referential object `a` with `a.self = a`
terminates — the result stabilises at every sufficiently large stack
budget — and the nested occurrence renders as the fixed `[Circular]`
marker. -/
theorem c4_cycle_termination :
    ∀ f : Nat,
      inspect (f + 10) selfRefHeap (.vref 0) [] false true =
        .ok ("<span class=\"ec-object\"><span class=\"ec-collapse-arrow\">⯈</span> \x7bself: [Circular]\x7d</span>",
          [0]) ∧
      strContains
        "<span class=\"ec-object\"><span class=\"ec-collapse-arrow\">⯈</span> \x7bself: [Circular]\x7d</span>"
        "[Circular]" = true :=
  fun _ => ⟨rfl, by decide⟩

/-- C2: an object whose only own property is an accessor renders, without
error, the fixed `[Getter]` placeholder; the result is identical whatever
the accessor would return or throw (`v`, `rT`), i.e. the getter is never
invoked. -/
theorem c2_getter_not_invoked :
    ∀ (key : String) (e rT rT' : Bool) (v v' : JSVal) (f : Nat),
      inspect (f + 10) (getterHeap key e rT v) (.vref 0) [] false true =
        .ok (wrapInSpan cnObject
          (.vstr (COLLAPSED_ARROW ++ " " ++ ("\x7b" ++ renderedGetterProp key e ++ "\x7d"))) false,
          [0]) ∧
      strContains (renderedGetterProp key e) "[Getter]" = true ∧
      inspect (f + 10) (getterHeap key e rT v) (.vref 0) [] false true =
        inspect (f + 10) (getterHeap key e rT' v') (.vref 0) [] false true := by
  intro key e rT rT' v v' f
  refine ⟨rfl, ?_, rfl⟩
  unfold renderedGetterProp
  cases e <;>
    exact strContains_append_right _ (strContains_append_right _ (by decide))

/-- C3 (amended): an exception thrown while INSPECTING an argument is caught
at that argument's boundary — (i) with a non-template first argument the
formatter always succeeds and renders every argument independently, (ii) an
argument whose inspection raises renders as the fixed `[Unknown]` marker,
and (iii) in the template case the same per-argument isolation holds once
the substitution coercion has succeeded.  The substitution coercion itself
runs outside the try/catch (see the counterexample). -/
theorem c3_inspection_isolation :
    (∀ (f : Nat) (H : Heap) (c : Bool) (d0 : JSVal) (data : List JSVal),
      isStringArg d0 = false →
      formatStringE f H c (d0 :: data) =
        .ok (String.intercalate " " ((d0 :: data).map (renderArg f H c)))) ∧
    (∀ (f : Nat) (H : Heap) (c : Bool) (a : JSVal) (e : JSErr),
      inspect f H a [] false c = .error e →
      renderArg f H c a = "[Unknown]") ∧
    (∀ (f : Nat) (H : Heap) (c : Bool) (s : String) (rest : List JSVal) (res : String),
      processTemplateE f H (.vstr s :: rest) s.data none 0 = .ok res →
      formatStringE f H c (.vstr s :: rest) =
        .ok (String.intercalate " " ((JSVal.vstr res :: rest).map (renderArg f H c)))) := by
  refine ⟨?_, ?_, ?_⟩
  · intro f H c d0 data h
    cases d0 with
    | vstr s => simp [isStringArg] at h
    | vnum n => rfl
    | vbool b => rfl
    | vundefined => rfl
    | vnull => rfl
    | vref a => rfl
  · intro f H c a e h
    simp [renderArg, h]
  · intro f H c s rest res h
    show (match processTemplateE f H (.vstr s :: rest) s.data none 0 with
      | Except.error e => Except.error e
      | Except.ok res => Except.ok (String.intercalate " "
          ((JSVal.vstr res :: rest).map (renderArg f H c)))) = _
    rw [h]

/-- C3 witness: the throwing-proxy object renders as `[Unknown]` while the
following `"ok"` renders normally, and a successful template substitution
keeps the same per-argument structure. -/
theorem c3_inspection_isolation_witness :
    isStringArg (JSVal.vref 0) = false ∧
    inspect 20 throwHeap (.vref 0) [] false true = .error .thrown ∧
    renderArg 20 throwHeap true (.vref 0) = "[Unknown]" ∧
    formatStringE 20 throwHeap true [.vref 0, .vstr "ok"] =
      .ok (String.intercalate " " ([JSVal.vref 0, .vstr "ok"].map (renderArg 20 throwHeap true))) ∧
    processTemplateE 20 [] [.vstr "a %s", .vstr "b"] "a %s".data none 0 = .ok "a b" ∧
    formatStringE 20 [] true [.vstr "a %s", .vstr "b"] =
      .ok (String.intercalate " " ([JSVal.vstr "a b", .vstr "b"].map (renderArg 20 [] true))) :=
  ⟨rfl, rfl, c3_inspection_isolation.2.1 20 throwHeap true (.vref 0) .thrown rfl,
    c3_inspection_isolation.1 20 throwHeap true (.vref 0) [.vstr "ok"] rfl, rfl,
    c3_inspection_isolation.2.2 20 [] true "a %s" [.vstr "b"] "a b" rfl⟩

/-- C3 counterexample: the template substitution `res += data[++idx]`
coerces the consumed argument outside the try/catch, so formatting
`("%s", \x7btoString()\x7bthrow 1\x7d\x7d)` raises out of the logging call
— the error does propagate.  Inspecting the very same hostile object (alone
or followed by `"ok"`) succeeds: only the coercion path escapes. -/
theorem c3_coercion_escape_counterexample :
    formatStringE 20 hostileTSHeap true [.vstr "%s", .vref 0] = .error .thrown ∧
    formatStringE 20 hostileTSHeap true [.vref 0] =
      .ok "<span class=\"ec-object\"><span class=\"ec-collapse-arrow\">⯈</span> \x7b\x7d</span>" ∧
    formatStringE 20 hostileTSHeap true [.vref 0, .vstr "ok"] =
      .ok "<span class=\"ec-object\"><span class=\"ec-collapse-arrow\">⯈</span> \x7b\x7d</span> <span class=\"ec-string\">ok</span>" :=
  ⟨rfl, rfl, rfl⟩

/-- Property step of the walk on a reference already in the visited set:
it renders the `[Circular]` marker and does not descend. -/
theorem props_circular (a : Nat) (vis2 : List Nat) (hc : vis2.contains a = true) (g : Nat) :
    run (g + 2) (singleRefObj a) (.props false true [⟨"p", true, false, false, .vref a⟩] 0 "") vis2 =
      .ok ("p: [Circular]", vis2) := by
  show run (g + 1 + 1) _ _ _ = _
  simp only [run, hc, if_true]
  rfl

/-- C5 (amended): during the structural walk of an object, a property value
whose reference is already in the visited set renders as the fixed
`[Circular]` marker and is not walked again — this is where the source
consults the visited set (Set/Map elements are not checked, see the
counterexample). -/
theorem c5_visited_property_renders_circular :
    ∀ (f a : Nat) (vis : List Nat),
      vis.contains a = true →
      inspect (f + 10) (singleRefObj a) (.vref 0) vis false true =
        .ok (wrapInSpan cnObject (.vstr (COLLAPSED_ARROW ++ " " ++ ("\x7bp: [Circular]\x7d"))) false,
          wsAdd vis 0) := by
  intro f a vis h
  have hc : (wsAdd vis 0).contains a = true := contains_wsAdd 0 h
  show run (f + 9 + 1) (singleRefObj a) (.ins (.vref 0) false true) vis = _
  conv_lhs => rw [run]
  conv_lhs => rw [show f + 9 = f + 8 + 1 from rfl, run]
  have hH : heapGet (singleRefObj a) 0 =
      ObjData.obj none [⟨"p", true, false, false, .vref a⟩] := rfl
  simp only [hH, isArrData, ownProps]
  rw [show f + 8 = f + 6 + 2 from rfl, props_circular a (wsAdd vis 0) hc (f + 6)]
  rfl

/-- C5 witness: concrete instance of the amended statement at address 5
with visited set `[5]`. -/
theorem c5_visited_property_witness :
    List.contains [5] 5 = true ∧
    inspect 10 (singleRefObj 5) (.vref 0) [5] false true =
      .ok (wrapInSpan cnObject (.vstr (COLLAPSED_ARROW ++ " " ++ ("\x7bp: [Circular]\x7d"))) false,
        wsAdd [5] 0) :=
  ⟨rfl, c5_visited_property_renders_circular 0 5 [5] rfl⟩

/-- C5 counterexample: a composite present in the visited set IS re-entered
when it appears as a Set element.  With `a = \x7bs: set\x7d` and the set
containing `a`, the element occurrence of `a` (visited set `[1, 0]`, which
contains address 0) is structurally walked again — its key `s` is rendered
a second time — instead of rendering the bare `[Circular]` marker; the
full collapsed output never contains a Set rendered as `\x7b[Circular]\x7d`. -/
theorem c5_set_element_counterexample :
    List.contains [1, 0] 0 = true ∧
    inspectOutV 25 setCycleHeap (.vref 0) [1, 0] true ≠ "[Circular]" ∧
    strContains (inspectOutV 25 setCycleHeap (.vref 0) [1, 0] true) "s: [Circular]" = true ∧
    inspectOut 30 setCycleHeap (.vref 0) true =
      "<span class=\"ec-object\"><span class=\"ec-collapse-arrow\">⯈</span> \x7bs: <span class=\"ec-object\">Set(<span class=\"ec-numeric\">1</span>) \x7b<span class=\"ec-object\"><span class=\"ec-collapse-arrow\">⯈</span> \x7bs: [Circular]\x7d</span>\x7d</span>\x7d</span>" ∧
    strContains (inspectOut 30 setCycleHeap (.vref 0) true) "\x7b[Circular]\x7d" = false := by
  refine ⟨rfl, by decide, by decide, rfl, by decide⟩

set_option maxRecDepth 100000 in
/-- C6 (code bug): for the object with 10 own enumerable properties, the
collapsed walk pre-increments its counter and stops as soon as it reaches
MAX_COLLAPSED_PROPERTIES = 5, so only 4 properties render before the
truncation marker (the source's comment says Chrome shows up to 5);
expanded rendering shows all 10 properties with a line break before each. -/
theorem c6_collapsed_cap_evaluation :
    strCount (inspectOut 30 tenPropHeap (.vref 0) true) "ec-numeric" = 4 ∧
    strContains (inspectOut 30 tenPropHeap (.vref 0) true) ", …" = true ∧
    strContains (inspectOut 30 tenPropHeap (.vref 0) true) "e:" = false ∧
    strCount (inspectOut 30 tenPropHeap (.vref 0) false) "ec-numeric" = 10 ∧
    strCount (inspectOut 30 tenPropHeap (.vref 0) false) "<br />" = 10 ∧
    MAX_COLLAPSED_PROPERTIES = 5 := by
  refine ⟨by decide, by decide, by decide, by decide, by decide, rfl⟩

/-- Template loop on `"%s is %d"` with a non-empty string and a non-zero
number: both placeholders are substituted by the raw string coercion of the
corresponding argument (not by any inspected markup). -/
theorem processTemplate_c7 (a : String) (n : Int) (h1 : a ≠ "") (h2 : n ≠ 0) :
    processTemplate [.vstr "%s is %d", .vstr a, .vnum n] "%s is %d".data none 0 =
      a ++ " is " ++ toString n := by
  have ha : (a == "") = false := by simpa using h1
  have hn : (n == 0) = false := by simpa using h2
  show processTemplate _ ['%', 's', ' ', 'i', 's', ' ', '%', 'd'] none 0 = _
  simp only [processTemplate, placeholders, jsTruthy, jsToString, ha, hn]
  norm_num
  apply String.ext
  simp [data_append, String.singleton, h1, h2]

/-- C7 (amended): placeholders are substituted with the raw string coercion
of the consumed arguments; the substituted template becomes the first entry
while the consumed trailing arguments remain in place (the source's `slice`
call does not mutate), and every entry is then independently inspected and
space-joined. -/
theorem c7_raw_substitution_keeps_consumed_args :
    ∀ (a : String) (n : Int) (f : Nat) (H : Heap),
      a ≠ "" → n ≠ 0 →
      formatString f H true [.vstr "%s is %d", .vstr a, .vnum n] =
        String.intercalate " "
          ([JSVal.vstr (a ++ " is " ++ toString n), .vstr a, .vnum n].map (renderArg f H true)) := by
  intro a n f H h1 h2
  show String.intercalate " "
      (List.map (renderArg f H true)
        [JSVal.vstr (processTemplate [.vstr "%s is %d", .vstr a, .vnum n] "%s is %d".data none 0),
          .vstr a, .vnum n]) = _
  rw [processTemplate_c7 a n h1 h2]

/-- C7 witness: the amended statement at `("%s is %d", "x", 5)`. -/
theorem c7_raw_substitution_witness :
    ("x" ≠ "" ∧ (5 : Int) ≠ 0) ∧
    formatString 20 [] true [.vstr "%s is %d", .vstr "x", .vnum 5] =
      String.intercalate " "
        ([JSVal.vstr ("x" ++ " is " ++ toString (5 : Int)), .vstr "x", .vnum 5].map
          (renderArg 20 [] true)) :=
  ⟨⟨by decide, by decide⟩,
    c7_raw_substitution_keeps_consumed_args "x" 5 20 [] (by decide) (by decide)⟩

/-- C7 counterexample: formatting `("%s is %d", "x", 5)` yields three
space-joined renderings — the template with raw substitutions, then the
already-consumed `"x"` and `5` rendered again — not a single rendering of
the substituted template, and the substitution is the raw text
`x&nbsp;is&nbsp;5` rather than the Inspector's markup for `"x"` and `5`. -/
theorem c7_consumed_args_counterexample :
    formatString 20 [] true [.vstr "%s is %d", .vstr "x", .vnum 5] =
      "<span class=\"ec-string\">x&nbsp;is&nbsp;5</span> <span class=\"ec-string\">x</span> <span class=\"ec-numeric\">5</span>" ∧
    strCount (formatString 20 [] true [.vstr "%s is %d", .vstr "x", .vnum 5]) "<span" = 3 ∧
    formatString 20 [] true [.vstr "%s is %d", .vstr "x", .vnum 5] ≠
      renderArg 20 [] true (.vstr "x is 5") := by
  refine ⟨rfl, by decide, by decide⟩

/-- C8: for Set-like AND Map-like values, whatever the reported `size`
value is, the rendered prefix embeds the inspector's own rendering of it
(hypothesised as `R`), never a raw concatenation; for a string-valued size
that rendering is the nested quoted span whose text is escaped into safe
chunks; for the hostile size `"<b>x</b>"` both the Set and the Map outputs
(with and without entries) contain `&lt;b&gt;` and no raw `<b>`. -/
theorem c8_size_inspected :
    (∀ (sz : JSVal) (f : Nat) (R : String) (vis1 : List Nat),
      run (f + 1) (hostileSetHeap sz) (.ins sz true true) [] = .ok (R, vis1) →
      inspect (f + 2) (hostileSetHeap sz) (.vref 0) [] false true =
        .ok (wrapInSpan cnSet (.vstr ("Set(" ++ R ++ ") \x7b" ++ "" ++ "\x7d")) false, vis1)) ∧
    (∀ (sz : JSVal) (f : Nat) (R : String) (vis1 : List Nat),
      run (f + 1) (hostileMapHeap sz) (.ins sz true true) [] = .ok (R, vis1) →
      inspect (f + 2) (hostileMapHeap sz) (.vref 0) [] false true =
        .ok (wrapInSpan cnMap (.vstr ("Map(" ++ R ++ ") \x7b" ++ "" ++ "\x7d")) false, vis1)) ∧
    (∀ (s : String) (f : Nat),
      run (f + 1) (hostileSetHeap (.vstr s)) (.ins (.vstr s) true true) [] =
        .ok (wrapInSpan cnStringObject (.vstr ("\"" ++ trimString s ++ "\"")) true, []) ∧
      SafeChunks (escapeHtmlStr ("\"" ++ trimString s ++ "\"")).data) ∧
    (strContains (inspectOut 20 (hostileSetHeap (.vstr "<b>x</b>")) (.vref 0) true) "<b>" = false ∧
      strContains (inspectOut 20 (hostileSetHeap (.vstr "<b>x</b>")) (.vref 0) true) "&lt;b&gt;" = true) ∧
    (strContains (inspectOut 20 (hostileMapHeap (.vstr "<b>x</b>")) (.vref 0) true) "<b>" = false ∧
      strContains (inspectOut 20 (hostileMapHeap (.vstr "<b>x</b>")) (.vref 0) true) "&lt;b&gt;" = true) ∧
    (strContains (inspectOut 20 hostileSetHeap2 (.vref 0) true) "<b>" = false ∧
      strContains (inspectOut 20 hostileSetHeap2 (.vref 0) true) "&lt;b&gt;" = true) ∧
    (strContains (inspectOut 20 hostileMapHeap2 (.vref 0) true) "<b>" = false ∧
      strContains (inspectOut 20 hostileMapHeap2 (.vref 0) true) "&lt;b&gt;" = true) := by
  refine ⟨?_, ?_, fun s _ => ⟨rfl, escapeHtmlStr_safe _⟩,
    ⟨by decide, by decide⟩, ⟨by decide, by decide⟩, ⟨by decide, by decide⟩,
    ⟨by decide, by decide⟩⟩
  · intro sz f R vis1 h
    show (match run (f + 1) (hostileSetHeap sz) (ICall.ins sz true true) [] with
      | Except.error e => Except.error e
      | Except.ok (szr, visA) =>
        match run (f + 1) (hostileSetHeap sz) (ICall.elems [] true) visA with
        | Except.error e => Except.error e
        | Except.ok (er, visB) =>
          Except.ok (wrapInSpan cnSet
            (JSVal.vstr ("Set(" ++ szr ++ ") \x7b" ++ er ++ "\x7d")) false, visB)) = _
    rw [h]
    rfl
  · intro sz f R vis1 h
    show (match run (f + 1) (hostileMapHeap sz) (ICall.ins sz true true) [] with
      | Except.error e => Except.error e
      | Except.ok (szr, visA) =>
        match run (f + 1) (hostileMapHeap sz) (ICall.pairs [] true) visA with
        | Except.error e => Except.error e
        | Except.ok (er, visB) =>
          Except.ok (wrapInSpan cnMap
            (JSVal.vstr ("Map(" ++ szr ++ ") \x7b" ++ er ++ "\x7d")) false, visB)) = _
    rw [h]
    rfl

/-- C8 witness: the general Set and Map statements applied to the hostile
string size `"<b>x</b>"`, whose nested rendering is the escaped quoted
span. -/
theorem c8_size_inspected_witness :
    run 19 (hostileSetHeap (.vstr "<b>x</b>")) (.ins (.vstr "<b>x</b>") true true) [] =
      .ok (wrapInSpan cnStringObject (.vstr ("\"" ++ trimString "<b>x</b>" ++ "\"")) true, []) ∧
    inspect 20 (hostileSetHeap (.vstr "<b>x</b>")) (.vref 0) [] false true =
      .ok (wrapInSpan cnSet
        (.vstr ("Set(" ++ wrapInSpan cnStringObject (.vstr ("\"" ++ trimString "<b>x</b>" ++ "\"")) true ++
          ") \x7b" ++ "" ++ "\x7d")) false, []) ∧
    inspect 20 (hostileMapHeap (.vstr "<b>x</b>")) (.vref 0) [] false true =
      .ok (wrapInSpan cnMap
        (.vstr ("Map(" ++ wrapInSpan cnStringObject (.vstr ("\"" ++ trimString "<b>x</b>" ++ "\"")) true ++
          ") \x7b" ++ "" ++ "\x7d")) false, []) :=
  ⟨rfl,
    c8_size_inspected.1 (.vstr "<b>x</b>") 18
      (wrapInSpan cnStringObject (.vstr ("\"" ++ trimString "<b>x</b>" ++ "\"")) true) [] rfl,
    c8_size_inspected.2.1 (.vstr "<b>x</b>") 18
      (wrapInSpan cnStringObject (.vstr ("\"" ++ trimString "<b>x</b>" ++ "\"")) true) [] rfl⟩

/-- C9: `time` stores the timestamp under the label, overwriting any prior
entry; `timeEnd` on an unknown label appends only the warning
"Timer \x7blabel\x7d does not exist" and leaves the timer map unchanged;
`timeEnd` on a known label appends a log entry with the elapsed time and
removes the entry (so a repeated `timeEnd` warns). -/
theorem c9_timer_lifecycle :
    (∀ (s : EC) (label : String) (now : Int),
      mapGet (EC.time s label now).timers label = some now) ∧
    (∀ (s : EC) (label : String) (now : Int),
      mapGet s.timers label = none →
      EC.timeEnd s label now =
        { s with output := s.output ++
            [(LogLevel.warn,
              formatString logFuel [] true [.vstr ("Timer " ++ label ++ " does not exist")])] }) ∧
    (∀ (s : EC) (label : String) (now p : Int),
      mapGet s.timers label = some p →
      EC.timeEnd s label now =
        { timers := mapDelete s.timers label,
          output := s.output ++
            [(LogLevel.log, formatString logFuel [] true
              [.vstr (label ++ ":"), .vstr (toString (now - p) ++ "ms")])] }) := by
  refine ⟨fun s label now => mapGet_mapSet s.timers label now, ?_, ?_⟩
  · intro s label now h
    unfold EC.timeEnd
    rw [h]
    rfl
  · intro s label now p h
    unfold EC.timeEnd
    rw [h]
    rfl

/-- C9 witness: a concrete timer run — `time "t"` then `timeEnd "t"` logs
`t: 7ms` and empties the map; `timeEnd "t"` on the empty map warns and
changes nothing else. -/
theorem c9_timer_lifecycle_witness :
    mapGet (EC.time ⟨[], []⟩ "t" 5).timers "t" = some 5 ∧
    mapGet (⟨[], []⟩ : EC).timers "t" = none ∧
    EC.timeEnd (⟨[], []⟩ : EC) "t" 3 =
      { timers := [],
        output := [(LogLevel.warn,
          formatString logFuel [] true [.vstr "Timer t does not exist"])] } ∧
    mapGet (⟨[("t", 5)], []⟩ : EC).timers "t" = some 5 ∧
    EC.timeEnd (⟨[("t", 5)], []⟩ : EC) "t" 12 =
      { timers := [],
        output := [(LogLevel.log,
          formatString logFuel [] true [.vstr "t:", .vstr "7ms"])] } :=
  ⟨c9_timer_lifecycle.1 ⟨[], []⟩ "t" 5, rfl,
    c9_timer_lifecycle.2.1 ⟨[], []⟩ "t" 3 rfl, rfl,
    c9_timer_lifecycle.2.2 ⟨[("t", 5)], []⟩ "t" 12 5 rfl⟩

/-- Template loop without any `%`-plus-specifier pair: it copies every
character except the `%` signs, which are dropped. -/
theorem processTemplate_no_subst (data : List JSVal) :
    ∀ (l : List Char) (prev : Option Char) (idx : Nat),
      hasSubst prev l = false →
      processTemplate data l prev idx = String.mk (l.filter fun c => !(c == '%')) := by
  intro l
  induction l with
  | nil => intro prev idx _; rfl
  | cons c cs ih =>
    intro prev idx h
    simp only [hasSubst, Bool.or_eq_false_iff] at h
    unfold processTemplate
    rw [h.1]
    by_cases hc : (c == '%') = true
    · simp [hc, ih _ _ h.2, List.filter]
    · simp [hc, ih _ _ h.2, List.filter, singleton_append_mk]

/-- C10 (amended): when the single string argument never places a recognized
specifier right after a `%`, every `%` is dropped and the remaining text is
rendered; in particular `("100% done")` yields `100 done` (escaped).  When
a specifier does follow `%` and its argument is missing, the literal
placeholder is re-emitted (see the counterexample). -/
theorem c10_percent_dropping :
    (∀ (s : String) (f : Nat) (H : Heap),
      hasSubst none s.data = false →
      formatString f H true [.vstr s] =
        renderArg f H true (.vstr (String.mk (s.data.filter fun c => !(c == '%'))))) ∧
    formatString 20 [] true [.vstr "100% done"] = "<span class=\"ec-string\">100&nbsp;done</span>" ∧
    strContains (formatString 20 [] true [.vstr "100% done"]) "%" = false := by
  refine ⟨?_, rfl, by decide⟩
  intro s f H h
  show String.intercalate " "
      (List.map (renderArg f H true) [JSVal.vstr (processTemplate [.vstr s] s.data none 0)]) = _
  rw [processTemplate_no_subst [.vstr s] s.data none 0 h]
  exact intercalate_single _

/-- C10 witness: the amended statement applied to `"100% done"`. -/
theorem c10_percent_dropping_witness :
    hasSubst none "100% done".data = false ∧
    formatString 20 [] true [.vstr "100% done"] =
      renderArg 20 [] true (.vstr (String.mk ("100% done".data.filter fun c => !(c == '%')))) :=
  ⟨by decide, c10_percent_dropping.1 "100% done" 20 [] (by decide)⟩

/-- C10 counterexample: formatting the single argument `"%s"` re-emits the
literal placeholder (no argument is available), so a `%` character does
survive into the output. -/
theorem c10_percent_counterexample :
    formatString 20 [] true [.vstr "%s"] = "<span class=\"ec-string\">%s</span>" ∧
    strContains (formatString 20 [] true [.vstr "%s"]) "%" = true :=
  ⟨rfl, by decide⟩

end DashConsole
